import Mathlib

/-!
Verification of the sigma_tcp_esp32 protocol codec and connection handlers.

The Rust sources are embedded shallowly:

* bytes are `Nat` (values below 256 wherever the source type is `u8`);
* `u16::from_be_bytes` / `u32::from_be_bytes` become big-endian recombination
  over `Nat`, and the `to_be_bytes` serializers reduce the value modulo the
  width explicitly;
* fallible Rust code returns `Except String`; a possible index/slice panic is
  modelled by `Option` (`none` = panic);
* the per-connection socket loops become functions from the list of chunks
  delivered by successive socket reads to the emitted response bytes.

Embedded sources: `src/src/protocol/mod.rs` (codec), `src/src/backend/debug.rs`
(mock backend), `src/src/main.rs` (simple connection handler),
`src/src/examples/debug.rs` (draining connection handler) and
`src/sigmadsp_esp32/src/main.rs` (device-side command processing).
-/

deriving instance DecidableEq for Except

/-- Big-endian recombination of a byte slice (`uN::from_be_bytes`). -/
def beNat (l : List Nat) : Nat := l.foldl (fun a b => a * 256 + b) 0

/-- Big-endian serialization of a `u16` (`u16::to_be_bytes`); the value is
reduced modulo `2 ^ 16` as the machine type would. -/
def u16be (n : Nat) : List Nat := [n / 256 % 256, n % 256]

/-- Big-endian serialization of a `u32` (`u32::to_be_bytes`). -/
def u32be (n : Nat) : List Nat :=
  [n / 2 ^ 24 % 256, n / 2 ^ 16 % 256, n / 2 ^ 8 % 256, n % 256]

/-- `src/src/protocol/mod.rs` line 4: `CMD_READ`. -/
def CMD_READ : Nat := 0x0a

/-- `src/src/protocol/mod.rs` line 5: `CMD_WRITE`. -/
def CMD_WRITE : Nat := 0x09

/-- `src/src/protocol/mod.rs` line 6: `CMD_RESP`. -/
def CMD_RESP : Nat := 0x0b

/-- `src/src/protocol/mod.rs` lines 8-15: header of a Read command. -/
structure RequestHeader where
  control_bit : Nat
  total_len : Nat
  chip_addr : Nat
  data_len : Nat
  param_addr : Nat
deriving DecidableEq

/-- `src/src/protocol/mod.rs` lines 17-26: header of a Write command. -/
structure WriteHeader where
  control_bit : Nat
  safeload : Nat
  channel_num : Nat
  total_len : Nat
  chip_addr : Nat
  data_len : Nat
  param_addr : Nat
deriving DecidableEq

/-- `src/src/protocol/mod.rs` lines 28-37: header of a response; the one-byte
`reserved: [u8; 1]` array is modelled by a single `Nat`. -/
structure ResponseHeader where
  control_bit : Nat
  total_len : Nat
  chip_addr : Nat
  data_len : Nat
  param_addr : Nat
  success : Nat
  reserved : Nat
deriving DecidableEq

/-- Models the Rust slice expression `buf[i..j]`: defined exactly when
`i ≤ j ≤ buf.len()`; out of that range Rust panics, modelled as `none`. -/
def slice? (buf : List Nat) (i j : Nat) : Option (List Nat) :=
  if i ≤ j ∧ j ≤ buf.length then some ((buf.drop i).take (j - i)) else none

/-- `src/src/protocol/mod.rs` lines 39-49: `RequestHeader::from_bytes`.  The
source indexes `buf[0]`, `buf[1..5]`, `buf[5]`, `buf[6..10]`, `buf[10..12]`
without a length guard, so the result is `none` (panic) on buffers shorter
than 12 bytes; the `try_into()?` can never fail on a 4- or 2-byte slice, so
no `Except` layer is needed. -/
def RequestHeader.from_bytes (buf : List Nat) : Option RequestHeader := do
  let b0 ← buf[0]?
  let t ← slice? buf 1 5
  let chip ← buf[5]?
  let d ← slice? buf 6 10
  let p ← slice? buf 10 12
  some { control_bit := b0, total_len := beNat t, chip_addr := chip,
         data_len := beNat d, param_addr := beNat p }

/-- `src/src/protocol/mod.rs` lines 51-66: `WriteHeader::from_bytes`.  The
length is checked first (`Err` on fewer than 14 bytes), after which all
fourteen single-byte indexings are in bounds. -/
def WriteHeader.from_bytes (buf : List Nat) : Option (Except String WriteHeader) :=
  if buf.length < 14 then some (.error "Buffer too short for write header")
  else do
    let b0 ← buf[0]?
    let b1 ← buf[1]?
    let b2 ← buf[2]?
    let b3 ← buf[3]?
    let b4 ← buf[4]?
    let b5 ← buf[5]?
    let b6 ← buf[6]?
    let b7 ← buf[7]?
    let b8 ← buf[8]?
    let b9 ← buf[9]?
    let b10 ← buf[10]?
    let b11 ← buf[11]?
    let b12 ← buf[12]?
    let b13 ← buf[13]?
    some (.ok { control_bit := b0, safeload := b1, channel_num := b2,
                total_len := beNat [b3, b4, b5, b6], chip_addr := b7,
                data_len := beNat [b8, b9, b10, b11],
                param_addr := beNat [b12, b13] })

/-- `src/src/protocol/mod.rs` lines 68-80: `ResponseHeader::to_bytes`, one
byte pushed or slice extended at a time, big-endian. -/
def ResponseHeader.to_bytes (h : ResponseHeader) : List Nat :=
  h.control_bit % 256 ::
    (u32be h.total_len ++ h.chip_addr % 256 ::
      (u32be h.data_len ++ u16be h.param_addr ++ [h.success % 256, h.reserved % 256]))

/-- `src/src/protocol/mod.rs` lines 82-92: `ProtocolCommand`. -/
inductive ProtocolCommand where
  | read (header : RequestHeader)
  | write (header : WriteHeader) (data : List Nat)
  | unknown (cmd : Nat)
deriving DecidableEq

/-- `src/src/protocol/mod.rs` lines 94-104: `ProtocolResponse`. -/
inductive ProtocolResponse where
  | read (header : ResponseHeader) (data : List Nat)
  | write (header : ResponseHeader)
  | error (msg : String)
deriving DecidableEq

namespace ProtocolHandler

/-- `src/src/protocol/mod.rs` lines 109-138: `ProtocolHandler::parse_command`.
The outer `Option` models the possibility of an index panic (`none`); the
inner `Except` is the `anyhow::Result` of the source. -/
def parse_command (buf : List Nat) : Option (Except String ProtocolCommand) :=
  if buf.isEmpty then some (.error "Empty buffer")
  else
    match buf[0]? with
    | none => none
    | some b =>
      if b = CMD_READ then
        if 12 ≤ buf.length then
          match RequestHeader.from_bytes buf with
          | none => none
          | some h => some (.ok (.read h))
        else some (.error "Buffer too short for read command")
      else if b = CMD_WRITE then
        if 14 ≤ buf.length then
          match WriteHeader.from_bytes buf with
          | none => none
          | some (.error e) => some (.error e)
          | some (.ok h) =>
            if 14 + h.data_len ≤ buf.length then
              match slice? buf 14 (14 + h.data_len) with
              | none => none
              | some d => some (.ok (.write h d))
            else some (.error "Buffer too short for write data")
        else some (.error "Buffer too short for write command")
      else some (.ok (.unknown b))

/-- `src/src/protocol/mod.rs` lines 140-151: `ProtocolHandler::create_read_response`. -/
def create_read_response (chip_addr data_len param_addr : Nat) (data : List Nat) :
    ProtocolResponse :=
  .read { control_bit := CMD_RESP, total_len := 13 + data.length,
          chip_addr := chip_addr, data_len := data_len, param_addr := param_addr,
          success := 0, reserved := 0 } data

/-- `src/src/protocol/mod.rs` lines 153-164: `ProtocolHandler::create_write_response`. -/
def create_write_response (chip_addr data_len param_addr : Nat) : ProtocolResponse :=
  .write { control_bit := CMD_RESP, total_len := 13,
           chip_addr := chip_addr, data_len := data_len, param_addr := param_addr,
           success := 0, reserved := 0 }

/-- `src/src/protocol/mod.rs` lines 166-168: `ProtocolHandler::create_error_response`. -/
def create_error_response (e : String) : ProtocolResponse := .error e

end ProtocolHandler

/-- `src/src/main.rs` lines 64-73: how a response is written to the socket:
a read response is its header followed by the payload, a write response is
the bare header, and an error response is only logged (nothing emitted). -/
def emitResponse : ProtocolResponse → List Nat
  | .read h d => h.to_bytes ++ d
  | .write h => h.to_bytes
  | .error _ => []

/-- Field extraction used by the modelled library codec: byte `i` of the
buffer (always called under a length guard that makes it in bounds). -/
def byteAt (buf : List Nat) (i : Nat) : Nat := buf.getD i 0

/-- The Read-command header decoded at the fixed offsets of spec section 4.1:
`control(1) · total_len(4) · chip_addr(1) · data_len(4) · param_addr(2)`. -/
def readHeaderAt (buf : List Nat) : RequestHeader :=
  { control_bit := byteAt buf 0, total_len := beNat ((buf.drop 1).take 4),
    chip_addr := byteAt buf 5, data_len := beNat ((buf.drop 6).take 4),
    param_addr := beNat ((buf.drop 10).take 2) }

/-- The Write-command header decoded at the fixed offsets of spec section 4.1:
`control(1) · safeload(1) · channel(1) · total_len(4) · chip_addr(1) ·
data_len(4) · param_addr(2)`. -/
def writeHeaderAt (buf : List Nat) : WriteHeader :=
  { control_bit := byteAt buf 0, safeload := byteAt buf 1, channel_num := byteAt buf 2,
    total_len := beNat [byteAt buf 3, byteAt buf 4, byteAt buf 5, byteAt buf 6],
    chip_addr := byteAt buf 7,
    data_len := beNat [byteAt buf 8, byteAt buf 9, byteAt buf 10, byteAt buf 11],
    param_addr := beNat [byteAt buf 12, byteAt buf 13] }

/-- Modelled from the spec: the library codec
`sigma_tcp_rs::ProtocolHandler::parse_command`, which returns the decoded
command together with the number of bytes it consumed.  Its source is not in
the snapshot; only its callers are (`src/src/examples/debug.rs`,
`src/sigmadsp_esp32/src/main.rs`).  Spec section 4.1: a Read needs 12 bytes
and consumes exactly 12; a Write needs `14 + data_len` bytes and consumes
`14 + data_len`, capturing the payload slice; fewer bytes give `Incomplete`
(an `Err` here, consuming nothing); any other opcode byte is reported
carrying that byte.  The spec leaves the bytes consumed by an unknown opcode
open (section 9); one byte is used here and no claim depends on it. -/
def parse_command_lib (buf : List Nat) : Except String (ProtocolCommand × Nat) :=
  match buf with
  | [] => .error "Empty buffer"
  | b :: _ =>
    if b = CMD_READ then
      if 12 ≤ buf.length then .ok (.read (readHeaderAt buf), 12)
      else .error "Buffer too short for read command"
    else if b = CMD_WRITE then
      if 14 ≤ buf.length then
        if 14 + (writeHeaderAt buf).data_len ≤ buf.length then
          .ok (.write (writeHeaderAt buf) ((buf.drop 14).take (writeHeaderAt buf).data_len),
               14 + (writeHeaderAt buf).data_len)
        else .error "Buffer too short for write data"
      else .error "Buffer too short for write command"
    else .ok (.unknown b, 1)

/-- The parse outcome taxonomy of spec section 4.1:
`Complete(Command, bytesConsumed)`, `Incomplete`, `Invalid(opcode)`. -/
inductive ParseOutcome where
  | complete (cmd : ProtocolCommand) (consumed : Nat)
  | incomplete
  | invalid (opcode : Nat)
deriving DecidableEq

/-- The modelled library codec expressed in the spec's taxonomy: a decoded
`unknown` is `Invalid` carrying the opcode, a decoding error is `Incomplete`
(every error of `parse_command_lib` is an insufficient-bytes condition). -/
def codecParse (buf : List Nat) : ParseOutcome :=
  match parse_command_lib buf with
  | .ok (.unknown c, _) => .invalid c
  | .ok (cmd, n) => .complete cmd n
  | .error _ => .incomplete

/-- `src/examples/backend/mod.rs`: the `Backend` capability, as a pair of
pure functions (the handlers serialize all calls behind a mutex, so one
transaction is a function of its arguments). -/
structure BackendM where
  read : Nat → Nat → Except String (List Nat)
  write : Nat → List Nat → Except String Unit

/-- `src/src/backend/debug.rs`: `DebugBackend` returns `len` copies of the
fill byte 12 and accepts every write. -/
def DebugBackend : BackendM :=
  { read := fun _ len => .ok (List.replicate len 12), write := fun _ _ => .ok () }

/-- A backend whose bus always faults, to exercise the error paths that
`src/src/backend/debug.rs` never takes. -/
def FailingBackend : BackendM :=
  { read := fun _ _ => .error "bus fault", write := fun _ _ => .error "bus fault" }

/-- `src/src/examples/debug.rs` lines 98-144: `process_command` of the
draining handler.  A successfully parsed command is dispatched to the
backend; backend failures propagate (`?`), an unknown opcode becomes an
error response; a parse failure becomes an error response with `0` consumed
bytes (with a distinct message for buffers shorter than 3 bytes). -/
def processCommandDbg (bk : BackendM) (buf : List Nat) :
    Except String (ProtocolResponse × Nat) :=
  match parse_command_lib buf with
  | .ok (cmd, bytes_read) =>
    match cmd with
    | .read h =>
      match bk.read h.param_addr h.data_len with
      | .ok data =>
        .ok (ProtocolHandler.create_read_response h.chip_addr h.data_len h.param_addr data,
             bytes_read)
      | .error e => .error e
    | .write h data =>
      match bk.write h.param_addr data with
      | .ok _ =>
        .ok (ProtocolHandler.create_write_response h.chip_addr h.data_len h.param_addr,
             bytes_read)
      | .error e => .error e
    | .unknown c =>
      .ok (ProtocolHandler.create_error_response ("Unknown command: " ++ toString c),
           bytes_read)
  | .error e =>
    if buf.length < 3 then .ok (.error "Incomplete command", 0)
    else .ok (.error ("Parse error: " ++ e), 0)

/-- `src/src/examples/debug.rs` lines 61-84: the draining loop of one read
event, with an explicit fuel so the recursion is structural.  The loop
repeatedly processes the unconsumed suffix and stops when `bytes_read` is 0
(not enough data) or the suffix is empty; each completed command consumes at
least one byte, so `buf.length` steps of fuel always suffice (`drainDbg`
below supplies exactly that).  The returned list collects the responses in
emission order; the returned suffix is what remains unconsumed. -/
def drainFuel (bk : BackendM) : Nat → List Nat → Except String (List ProtocolResponse × List Nat)
  | 0, buf => .ok ([], buf)
  | fuel + 1, buf =>
    if buf = [] then .ok ([], [])
    else
      match processCommandDbg bk buf with
      | .error e => .error e
      | .ok (resp, n) =>
        if n = 0 then .ok ([], buf)
        else
          match drainFuel bk fuel (buf.drop n) with
          | .error e => .error e
          | .ok (rs, rest) => .ok (resp :: rs, rest)

/-- One full draining cycle over a buffer (`src/src/examples/debug.rs`
lines 61-92); after it, the handler compacts the unconsumed suffix to the
front of its fixed buffer, which the list model represents by returning
that suffix. -/
def drainDbg (bk : BackendM) (buf : List Nat) :
    Except String (List ProtocolResponse × List Nat) :=
  drainFuel bk buf.length buf

/-- `src/src/examples/debug.rs` lines 48-96: the connection loop of the
draining handler, as a function of the chunks delivered by successive
socket reads.  Each read event appends its chunk, drains, keeps the
unconsumed suffix; an `Err` (backend or socket failure) ends the handler. -/
def runDbg (bk : BackendM) : List (List Nat) → List Nat → Except String (List ProtocolResponse)
  | [], _ => .ok []
  | c :: cs, buf =>
    match drainDbg bk (buf ++ c) with
    | .error e => .error e
    | .ok (rs, rest) =>
      match runDbg bk cs rest with
      | .error e => .error e
      | .ok out => .ok (rs ++ out)

/-- The bytes a list of responses puts on the socket. -/
def emitAll (rs : List ProtocolResponse) : List Nat := (rs.map emitResponse).flatten

/-- `src/src/main.rs` lines 84-120: `process_command` of the simple handler.
It parses the whole buffer with the in-tree codec (no byte count) and
propagates both parse failures and backend failures with `?`. -/
def process_command_main (bk : BackendM) (buf : List Nat) :
    Option (Except String ProtocolResponse) :=
  match ProtocolHandler.parse_command buf with
  | none => none
  | some (.error e) => some (.error ("Failed to parse command: " ++ e))
  | some (.ok cmd) =>
    match cmd with
    | .read h =>
      match bk.read h.param_addr h.data_len with
      | .ok data =>
        some (.ok (ProtocolHandler.create_read_response h.chip_addr h.data_len h.param_addr data))
      | .error e => some (.error e)
    | .write h data =>
      match bk.write h.param_addr data with
      | .ok _ =>
        some (.ok (ProtocolHandler.create_write_response h.chip_addr h.data_len h.param_addr))
      | .error e => some (.error e)
    | .unknown c =>
      some (.ok (ProtocolHandler.create_error_response ("Unknown command: " ++ toString c)))

/-- `src/src/main.rs` lines 53-78: the body of the simple handler's loop for
one read event.  The new chunk is appended, the whole buffer is processed as
one command, the response (if any) is emitted, and `count` is reset to 0 in
every response arm, so the buffer kept for the next read event is always
empty.  An `Err` from `process_command` makes the handler return `Err`
(the connection terminates). -/
def mainStep (bk : BackendM) (buf chunk : List Nat) :
    Option (Except String (List Nat × List Nat)) :=
  match process_command_main bk (buf ++ chunk) with
  | none => none
  | some (.error e) => some (.error e)
  | some (.ok resp) => some (.ok (emitResponse resp, []))

/-- `src/src/main.rs` lines 49-82: the simple handler's connection loop over
the chunks delivered by successive socket reads, returning the concatenated
emitted bytes, or the error that terminated the handler. -/
def runMain (bk : BackendM) : List (List Nat) → List Nat → Option (Except String (List Nat))
  | [], _ => some (.ok [])
  | c :: cs, buf =>
    match mainStep bk buf c with
    | none => none
    | some (.error e) => some (.error e)
    | some (.ok (out, buf2)) =>
      match runMain bk cs buf2 with
      | none => none
      | some (.error e) => some (.error e)
      | some (.ok rest) => some (.ok (out ++ rest))

/-- `src/sigmadsp_esp32/src/main.rs`: the library `ProtocolResponse` used on
the device (`Read` with header and data, unit `Write`, `Error`). -/
inductive EspResponse where
  | read (header : ResponseHeader) (data : List Nat)
  | write
  | error (msg : String)
deriving DecidableEq

/-- `src/sigmadsp_esp32/src/main.rs` lines 449-507: `process_command` of the
device.  Parse failures propagate (`?`, which only breaks the draining loop
of its caller); backend (I2C) failures are converted into an error response
and the command's `bytes_read` is still returned, so the command counts as
consumed and the connection proceeds.  `read_i2c_register` receives
`data_len as u16`, hence the modulus. -/
def processCommandEsp (bk : BackendM) (buf : List Nat) :
    Except String (EspResponse × Nat) :=
  match parse_command_lib buf with
  | .error e => .error ("Failed to parse command: " ++ e)
  | .ok (cmd, bytes_read) =>
    match cmd with
    | .read h =>
      match bk.read h.param_addr (h.data_len % 2 ^ 16) with
      | .ok data =>
        .ok (.read { control_bit := CMD_RESP, total_len := 13 + data.length,
                     chip_addr := h.chip_addr, data_len := h.data_len,
                     param_addr := h.param_addr, success := 0, reserved := 0 } data,
             bytes_read)
      | .error e => .ok (.error ("I2C read error: " ++ e), bytes_read)
    | .write h data =>
      match bk.write h.param_addr data with
      | .ok _ => .ok (.write, bytes_read)
      | .error e => .ok (.error ("I2C write error: " ++ e), bytes_read)
    | .unknown c => .ok (.error ("Unknown command: " ++ toString c), bytes_read)

/-- Spec section 8, Scenario A: a Read request for chip 1, parameter address
0xF6FB, 2 bytes. -/
def scenarioA : List Nat := [0x0a, 0x00, 0x00, 0x00, 0x0e, 0x01, 0x00, 0x00, 0x00, 0x02, 0xf6, 0xfb]

/-- Spec section 8, Scenario B: a Write of payload `[0x00, 0x08]` to chip 1,
parameter address 0xF020. -/
def scenarioB : List Nat :=
  [0x09, 0x00, 0x00, 0x00, 0x00, 0x00, 0x10, 0x01, 0x00, 0x00, 0x00, 0x02, 0xf0, 0x20, 0x00, 0x08]

/-- Whether the in-tree codec returned `Err` (as opposed to panicking or
decoding a command, `Unknown` included). -/
def isErrResult : Option (Except String ProtocolCommand) → Bool
  | some (.error _) => true
  | _ => false

/-- The input classes of the incomplete-data claim: an empty buffer, a Read
opcode with exactly 11 bytes, a Write opcode with exactly 13 bytes, or a
full 14-byte Write header whose declared `data_len` exceeds the available
payload bytes. -/
def incompleteInput (buf : List Nat) : Prop :=
  buf = [] ∨
  (buf.length = 11 ∧ byteAt buf 0 = CMD_READ) ∨
  (buf.length = 13 ∧ byteAt buf 0 = CMD_WRITE) ∨
  (14 ≤ buf.length ∧ byteAt buf 0 = CMD_WRITE ∧
    buf.length < 14 + (writeHeaderAt buf).data_len)

instance (buf : List Nat) : Decidable (incompleteInput buf) := by
  unfold incompleteInput
  infer_instance

/-- A decoded generic response frame. -/
structure ResponseFrame where
  control_bit : Nat
  total_len : Nat
  chip_addr : Nat
  data_len : Nat
  param_addr : Nat
  success : Nat
  reserved : Nat
  payload : List Nat
deriving DecidableEq

/-- Modelled from the spec: the repository has no decoder for response
frames, so the generic response frame of spec section 6 is decoded from its
layout row: `control(1) · total_len(4) · chip_addr(1) · data_len(4) ·
param_addr(2) · success(1) · reserved(1) · [payload]`; the listed fields
occupy 14 bytes, after which the payload follows. -/
def parseResponseFrame (bs : List Nat) : Option ResponseFrame :=
  if 14 ≤ bs.length then
    some { control_bit := byteAt bs 0, total_len := beNat ((bs.drop 1).take 4),
           chip_addr := byteAt bs 5, data_len := beNat ((bs.drop 6).take 4),
           param_addr := beNat ((bs.drop 10).take 2), success := byteAt bs 12,
           reserved := byteAt bs 13, payload := bs.drop 14 } else none

/-! ### Serialization round-trip facts -/

theorem beNat_u16be (n : Nat) (h : n < 2 ^ 16) : beNat (u16be n) = n := by
  simp only [beNat, u16be, List.foldl]
  omega

theorem beNat_u32be (n : Nat) (h : n < 2 ^ 32) : beNat (u32be n) = n := by
  simp only [beNat, u32be, List.foldl]
  omega

/-! ### The in-tree header decoders agree with the offset extractors -/

theorem getElem?_eq_byteAt (l : List Nat) (i : Nat) (h : i < l.length) :
    l[i]? = some (byteAt l i) := by
  rw [List.getElem?_eq_getElem h, byteAt, List.getD_eq_getElem l 0 h]

theorem slice?_pos (l : List Nat) (i j : Nat) (h1 : i ≤ j) (h2 : j ≤ l.length) :
    slice? l i j = some ((l.drop i).take (j - i)) := by
  rw [slice?, if_pos ⟨h1, h2⟩]

theorem requestHeader_from_bytes_eq (buf : List Nat) (h : 12 ≤ buf.length) :
    RequestHeader.from_bytes buf = some (readHeaderAt buf) := by
  rw [RequestHeader.from_bytes,
    getElem?_eq_byteAt buf 0 (by omega), getElem?_eq_byteAt buf 5 (by omega),
    slice?_pos buf 1 5 (by omega) (by omega), slice?_pos buf 6 10 (by omega) (by omega),
    slice?_pos buf 10 12 (by omega) (by omega)]
  rfl

theorem writeHeader_from_bytes_eq (buf : List Nat) (h : 14 ≤ buf.length) :
    WriteHeader.from_bytes buf = some (.ok (writeHeaderAt buf)) := by
  rw [WriteHeader.from_bytes, if_neg (by omega),
    getElem?_eq_byteAt buf 0 (by omega), getElem?_eq_byteAt buf 1 (by omega),
    getElem?_eq_byteAt buf 2 (by omega), getElem?_eq_byteAt buf 3 (by omega),
    getElem?_eq_byteAt buf 4 (by omega), getElem?_eq_byteAt buf 5 (by omega),
    getElem?_eq_byteAt buf 6 (by omega), getElem?_eq_byteAt buf 7 (by omega),
    getElem?_eq_byteAt buf 8 (by omega), getElem?_eq_byteAt buf 9 (by omega),
    getElem?_eq_byteAt buf 10 (by omega), getElem?_eq_byteAt buf 11 (by omega),
    getElem?_eq_byteAt buf 12 (by omega), getElem?_eq_byteAt buf 13 (by omega)]
  rfl

/-! ### Basic facts about the modelled library codec -/

theorem parse_command_lib_consumed (buf : List Nat) (cmd : ProtocolCommand) (n : Nat)
    (h : parse_command_lib buf = .ok (cmd, n)) : 0 < n ∧ n ≤ buf.length := by
  cases buf with
  | nil => exact absurd h (by simp [parse_command_lib])
  | cons b rest =>
    simp only [parse_command_lib] at h
    by_cases hb : b = CMD_READ
    · rw [if_pos hb] at h
      by_cases h12 : 12 ≤ (b :: rest).length
      · rw [if_pos h12] at h
        simp only [Except.ok.injEq, Prod.mk.injEq] at h
        omega
      · rw [if_neg h12] at h
        exact absurd h (by simp)
    · rw [if_neg hb] at h
      by_cases hw : b = CMD_WRITE
      · rw [if_pos hw] at h
        by_cases h14 : 14 ≤ (b :: rest).length
        · rw [if_pos h14] at h
          by_cases hdl : 14 + (writeHeaderAt (b :: rest)).data_len ≤ (b :: rest).length
          · rw [if_pos hdl] at h
            simp only [Except.ok.injEq, Prod.mk.injEq] at h
            omega
          · rw [if_neg hdl] at h
            exact absurd h (by simp)
        · rw [if_neg h14] at h
          exact absurd h (by simp)
      · rw [if_neg hw] at h
        simp only [Except.ok.injEq, Prod.mk.injEq] at h
        simp only [List.length_cons]
        omega

/-- Validation of the spec-modelled codec against the in-tree one: whenever
the modelled library codec decodes a command, `ProtocolHandler::parse_command`
of `src/src/protocol/mod.rs` decodes the same command. -/
theorem parse_command_lib_agrees (buf : List Nat) (cmd : ProtocolCommand) (n : Nat)
    (h : parse_command_lib buf = .ok (cmd, n)) :
    ProtocolHandler.parse_command buf = some (.ok cmd) := by
  cases buf with
  | nil => exact absurd h (by simp [parse_command_lib])
  | cons b rest =>
    simp only [parse_command_lib] at h
    simp only [ProtocolHandler.parse_command, List.isEmpty_cons, Bool.false_eq_true,
      if_false, List.getElem?_cons_zero]
    by_cases hb : b = CMD_READ
    · rw [if_pos hb] at h
      rw [if_pos hb]
      by_cases h12 : 12 ≤ (b :: rest).length
      · rw [if_pos h12] at h
        rw [if_pos h12, requestHeader_from_bytes_eq _ h12]
        simp only [Except.ok.injEq, Prod.mk.injEq] at h
        rw [← h.1]
      · rw [if_neg h12] at h
        exact absurd h (by simp)
    · rw [if_neg hb] at h
      rw [if_neg hb]
      by_cases hw : b = CMD_WRITE
      · rw [if_pos hw] at h
        rw [if_pos hw]
        by_cases h14 : 14 ≤ (b :: rest).length
        · rw [if_pos h14] at h
          rw [if_pos h14, writeHeader_from_bytes_eq _ h14]
          dsimp only
          by_cases hdl : 14 + (writeHeaderAt (b :: rest)).data_len ≤ (b :: rest).length
          · rw [if_pos hdl] at h
            rw [if_pos hdl, slice?_pos _ _ _ (by omega) hdl, Nat.add_sub_cancel_left]
            simp only [Except.ok.injEq, Prod.mk.injEq] at h
            rw [← h.1]
          · rw [if_neg hdl] at h
            exact absurd h (by simp)
        · rw [if_neg h14] at h
          exact absurd h (by simp)
      · rw [if_neg hw] at h
        rw [if_neg hw]
        simp only [Except.ok.injEq, Prod.mk.injEq] at h
        rw [← h.1]

theorem byteAt_take (l : List Nat) (k i : Nat) (h : i < k) :
    byteAt (l.take k) i = byteAt l i := by
  simp [byteAt, List.getD_eq_getElem?_getD, List.getElem?_take, h]

theorem writeHeaderAt_take_data_len (l : List Nat) (k : Nat) (h : 14 ≤ k) :
    (writeHeaderAt (l.take k)).data_len = (writeHeaderAt l).data_len := by
  simp only [writeHeaderAt]
  rw [byteAt_take l k 8 (by omega), byteAt_take l k 9 (by omega),
      byteAt_take l k 10 (by omega), byteAt_take l k 11 (by omega)]

/-- A proper front part of a buffer holding exactly one complete command is
always `Incomplete` for the codec (it decodes nothing and consumes nothing). -/
theorem parse_command_lib_take_err (B : List Nat) (cmd : ProtocolCommand)
    (h : parse_command_lib B = .ok (cmd, B.length)) :
    ∀ k, k < B.length → ∃ e, parse_command_lib (B.take k) = .error e := by
  intro k hk
  cases B with
  | nil => simp at hk
  | cons b rest =>
    cases k with
    | zero => exact ⟨"Empty buffer", by simp [parse_command_lib]⟩
    | succ k2 =>
      have hlen2 : (b :: rest.take k2).length = k2 + 1 := by
        simp only [List.length_cons, List.length_take]
        simp only [List.length_cons] at hk
        omega
      rw [List.take_succ_cons]
      simp only [parse_command_lib] at h ⊢
      by_cases hb : b = CMD_READ
      · rw [if_pos hb] at h ⊢
        by_cases h12 : 12 ≤ (b :: rest).length
        · rw [if_pos h12] at h
          simp only [Except.ok.injEq, Prod.mk.injEq] at h
          rw [if_neg (by omega : ¬ 12 ≤ (b :: rest.take k2).length)]
          exact ⟨_, rfl⟩
        · rw [if_neg h12] at h
          exact absurd h (by simp)
      · rw [if_neg hb] at h ⊢
        by_cases hw : b = CMD_WRITE
        · rw [if_pos hw] at h ⊢
          by_cases h14 : 14 ≤ (b :: rest).length
          · rw [if_pos h14] at h
            by_cases hdl : 14 + (writeHeaderAt (b :: rest)).data_len ≤ (b :: rest).length
            · rw [if_pos hdl] at h
              simp only [Except.ok.injEq, Prod.mk.injEq] at h
              by_cases hk14 : 14 ≤ k2 + 1
              · have hdleq : (writeHeaderAt (b :: rest.take k2)).data_len
                    = (writeHeaderAt (b :: rest)).data_len := by
                  rw [← List.take_succ_cons]
                  exact writeHeaderAt_take_data_len (b :: rest) (k2 + 1) hk14
                obtain ⟨hcmd2, hlen3⟩ := h
                rw [if_pos (by omega : 14 ≤ (b :: rest.take k2).length)]
                rw [hdleq]
                rw [if_neg (by omega :
                  ¬ 14 + (writeHeaderAt (b :: rest)).data_len ≤ (b :: rest.take k2).length)]
                exact ⟨_, rfl⟩
              · rw [if_neg (by omega : ¬ 14 ≤ (b :: rest.take k2).length)]
                exact ⟨_, rfl⟩
            · rw [if_neg hdl] at h
              exact absurd h (by simp)
          · rw [if_neg h14] at h
            exact absurd h (by simp)
        · rw [if_neg hw] at h ⊢
          simp only [Except.ok.injEq, Prod.mk.injEq] at h
          simp only [List.length_cons] at h hk
          omega

/-! ### Facts about the draining loop of `src/src/examples/debug.rs` -/

theorem drainFuel_nil (bk : BackendM) (fuel : Nat) : drainFuel bk fuel [] = .ok ([], []) := by
  cases fuel <;> simp [drainFuel]

theorem processCommandDbg_err (bk : BackendM) (buf : List Nat) (e : String)
    (h : parse_command_lib buf = .error e) :
    ∃ m, processCommandDbg bk buf = .ok (.error m, 0) := by
  rw [processCommandDbg, h]
  dsimp only
  by_cases h3 : buf.length < 3
  · rw [if_pos h3]; exact ⟨_, rfl⟩
  · rw [if_neg h3]; exact ⟨_, rfl⟩

/-- On `Incomplete` (and on any other decoding failure) the draining loop
stops without consuming or emitting anything: the whole buffer is kept. -/
theorem drainFuel_keep (bk : BackendM) (fuel : Nat) (buf : List Nat) (e : String)
    (h : parse_command_lib buf = .error e) : drainFuel bk fuel buf = .ok ([], buf) := by
  cases fuel with
  | zero => rfl
  | succ f =>
    rw [drainFuel]
    by_cases hb : buf = []
    · rw [if_pos hb, hb]
    · rw [if_neg hb]
      obtain ⟨m, hm⟩ := processCommandDbg_err bk buf e h
      rw [hm]
      rfl

theorem processCommandDbg_consumed (bk : BackendM) (buf : List Nat)
    (cmd : ProtocolCommand) (n : Nat) (h : parse_command_lib buf = .ok (cmd, n)) :
    (∃ e, processCommandDbg bk buf = .error e) ∨
      ∃ r, processCommandDbg bk buf = .ok (r, n) := by
  rw [processCommandDbg, h]
  cases cmd with
  | read hd =>
    dsimp only
    cases hr : bk.read hd.param_addr hd.data_len with
    | ok data => exact Or.inr ⟨_, rfl⟩
    | error e => exact Or.inl ⟨_, rfl⟩
  | write hd data =>
    dsimp only
    cases hw : bk.write hd.param_addr data with
    | ok u => exact Or.inr ⟨_, rfl⟩
    | error e => exact Or.inl ⟨_, rfl⟩
  | unknown c => exact Or.inr ⟨_, rfl⟩

/-- Draining a buffer that holds exactly one complete command processes that
one command and leaves an empty buffer. -/
theorem drainFuel_onecmd (bk : BackendM) (fuel : Nat) (buf : List Nat)
    (cmd : ProtocolCommand) (h : parse_command_lib buf = .ok (cmd, buf.length))
    (hf : 1 ≤ fuel) :
    drainFuel bk fuel buf
      = match processCommandDbg bk buf with
        | .error e => .error e
        | .ok (r, _) => .ok ([r], []) := by
  have hne : buf ≠ [] := by
    intro hb
    rw [hb] at h
    exact absurd h (by simp [parse_command_lib])
  have hpos : 0 < buf.length := List.length_pos.mpr hne
  cases fuel with
  | zero => omega
  | succ f =>
    rw [drainFuel, if_neg hne]
    rcases processCommandDbg_consumed bk buf cmd buf.length h with ⟨e, he⟩ | ⟨r, hr⟩
    · rw [he]
    · rw [hr]
      dsimp only
      rw [if_neg (by omega : ¬ buf.length = 0), List.drop_length, drainFuel_nil]

theorem runDbg_nil_chunks (bk : BackendM) (chunks : List (List Nat))
    (h : chunks.flatten = []) : runDbg bk chunks [] = .ok [] := by
  induction chunks with
  | nil => rfl
  | cons c cs ih =>
    rw [List.flatten_cons, List.append_eq_nil] at h
    rw [runDbg, h.1, show drainDbg bk ([] ++ []) = .ok ([], []) from rfl]
    dsimp only
    rw [ih h.2]
    rfl

theorem runDbg_single (bk : BackendM) (B : List Nat) (cmd : ProtocolCommand)
    (hB : parse_command_lib B = .ok (cmd, B.length)) :
    runDbg bk [B] []
      = match processCommandDbg bk B with
        | .error e => .error e
        | .ok (r, _) => .ok [r] := by
  have hpos := (parse_command_lib_consumed B cmd B.length hB).1
  rw [runDbg, List.nil_append, drainDbg,
    drainFuel_onecmd bk B.length B cmd hB (by omega)]
  cases hpc : processCommandDbg bk B with
  | error e => rfl
  | ok p =>
    obtain ⟨r, n⟩ := p
    rfl

theorem runDbg_loop (bk : BackendM) (B : List Nat) (cmd : ProtocolCommand)
    (hB : parse_command_lib B = .ok (cmd, B.length)) :
    ∀ cs : List (List Nat), ∀ k, k < B.length → cs.flatten = B.drop k →
      runDbg bk cs (B.take k) = runDbg bk [B] [] := by
  intro cs
  induction cs with
  | nil =>
    intro k hk hj
    exfalso
    have h2 : (List.drop k B).length = 0 := by rw [← hj]; rfl
    rw [List.length_drop] at h2
    omega
  | cons c cs ih =>
    intro k hk hj
    rw [List.flatten_cons] at hj
    have hcpre : c = (B.drop k).take c.length := by
      rw [← hj, List.take_left]
    have hrest : cs.flatten = B.drop (k + c.length) := by
      rw [← List.drop_drop, ← hj, List.drop_left]
    have hclen : c.length ≤ B.length - k := by
      have h1 := congrArg List.length hcpre
      rw [List.length_take, List.length_drop] at h1
      omega
    have hbuf : B.take k ++ c = B.take (k + c.length) := by
      rw [List.take_add B k c.length]
      exact congrArg (fun x => B.take k ++ x) hcpre
    rw [runDbg, hbuf]
    by_cases hfull : k + c.length = B.length
    · rw [hfull, List.take_length, drainDbg,
        drainFuel_onecmd bk B.length B cmd hB (by omega),
        runDbg_single bk B cmd hB]
      have hcs : cs.flatten = [] := by rw [hrest, hfull, List.drop_length]
      cases hpc : processCommandDbg bk B with
      | error e => rfl
      | ok p =>
        obtain ⟨r, n⟩ := p
        dsimp only
        rw [runDbg_nil_chunks bk cs hcs]
        rfl
    · have hlt : k + c.length < B.length := by omega
      obtain ⟨e, he⟩ := parse_command_lib_take_err B cmd hB (k + c.length) hlt
      rw [drainDbg, drainFuel_keep bk _ _ e he]
      dsimp only
      rw [ih (k + c.length) hlt hrest]
      cases runDbg bk [B] [] with
      | error e2 => rfl
      | ok out => rfl

/-- Fragmentation invariance of the draining connection handler
(`src/src/examples/debug.rs`): delivering the bytes of one complete command
in any split across socket reads produces exactly the run (same responses,
same emitted bytes, same terminal condition) of delivering them all at
once. -/
theorem runDbg_fragmentation (bk : BackendM) (B : List Nat) (cmd : ProtocolCommand)
    (chunks : List (List Nat)) (hB : parse_command_lib B = .ok (cmd, B.length))
    (hsplit : chunks.flatten = B) :
    runDbg bk chunks [] = runDbg bk [B] [] := by
  have hpos := (parse_command_lib_consumed B cmd B.length hB).1
  exact runDbg_loop bk B cmd hB chunks 0 (by omega) hsplit

/-- The draining loop never discards a received byte: the buffer it keeps is
always the unconsumed trailing part of its input, in order. -/
theorem drainFuel_unconsumed (bk : BackendM) :
    ∀ fuel buf rs rest, drainFuel bk fuel buf = .ok (rs, rest) →
      ∃ n, rest = buf.drop n := by
  intro fuel
  induction fuel with
  | zero =>
    intro buf rs rest h
    rw [drainFuel] at h
    simp only [Except.ok.injEq, Prod.mk.injEq] at h
    exact ⟨0, h.2.symm⟩
  | succ f ih =>
    intro buf rs rest h
    rw [drainFuel] at h
    by_cases hb : buf = []
    · rw [if_pos hb] at h
      simp only [Except.ok.injEq, Prod.mk.injEq] at h
      exact ⟨0, by rw [← h.2, hb]; rfl⟩
    · rw [if_neg hb] at h
      cases hpc : processCommandDbg bk buf with
      | error e =>
        rw [hpc] at h
        exact absurd h (by simp)
      | ok p =>
        obtain ⟨r, n⟩ := p
        rw [hpc] at h
        dsimp only at h
        by_cases hn : n = 0
        · rw [if_pos hn] at h
          simp only [Except.ok.injEq, Prod.mk.injEq] at h
          exact ⟨0, h.2.symm⟩
        · rw [if_neg hn] at h
          cases hdf : drainFuel bk f (buf.drop n) with
          | error e =>
            rw [hdf] at h
            exact absurd h (by simp)
          | ok q =>
            obtain ⟨rs1, rest1⟩ := q
            rw [hdf] at h
            simp only [Except.ok.injEq, Prod.mk.injEq] at h
            obtain ⟨m, hm⟩ := ih (buf.drop n) rs1 rest1 hdf
            refine ⟨n + m, ?_⟩
            rw [← h.2, hm, List.drop_drop]

/-! ### Incomplete inputs give the same error in both codecs -/

theorem incomplete_parse_err (buf : List Nat) (h : incompleteInput buf) :
    ∃ e, parse_command_lib buf = .error e
      ∧ ProtocolHandler.parse_command buf = some (.error e) := by
  rcases h with h0 | ⟨h11, hb⟩ | ⟨h13, hb⟩ | ⟨h14, hb, hdl⟩
  · subst h0
    exact ⟨"Empty buffer", rfl, rfl⟩
  · cases buf with
    | nil => simp at h11
    | cons b rest =>
      have hbb : b = CMD_READ := hb
      refine ⟨"Buffer too short for read command", ?_, ?_⟩
      · simp only [parse_command_lib]
        rw [if_pos hbb, if_neg (by omega)]
      · simp only [ProtocolHandler.parse_command, List.isEmpty_cons, Bool.false_eq_true,
          if_false, List.getElem?_cons_zero]
        rw [if_pos hbb, if_neg (by omega)]
  · cases buf with
    | nil => simp at h13
    | cons b rest =>
      have hbb : b = CMD_WRITE := hb
      have hbr : ¬ b = CMD_READ := by rw [hbb]; decide
      refine ⟨"Buffer too short for write command", ?_, ?_⟩
      · simp only [parse_command_lib]
        rw [if_neg hbr, if_pos hbb, if_neg (by omega)]
      · simp only [ProtocolHandler.parse_command, List.isEmpty_cons, Bool.false_eq_true,
          if_false, List.getElem?_cons_zero]
        rw [if_neg hbr, if_pos hbb, if_neg (by omega)]
  · cases buf with
    | nil => simp at h14
    | cons b rest =>
      have hbb : b = CMD_WRITE := hb
      have hbr : ¬ b = CMD_READ := by rw [hbb]; decide
      refine ⟨"Buffer too short for write data", ?_, ?_⟩
      · simp only [parse_command_lib]
        rw [if_neg hbr, if_pos hbb, if_pos h14, if_neg (by omega)]
      · simp only [ProtocolHandler.parse_command, List.isEmpty_cons, Bool.false_eq_true,
          if_false, List.getElem?_cons_zero]
        rw [if_neg hbr, if_pos hbb, if_pos h14, writeHeader_from_bytes_eq _ h14]
        dsimp only
        rw [if_neg (by omega)]

/-! ### Shape of the encoded responses -/

theorem emit_read_eq (c d a : Nat) (p : List Nat) (hc : c < 256) :
    emitResponse (ProtocolHandler.create_read_response c d a p)
      = CMD_RESP :: u32be (13 + p.length) ++ c :: u32be d ++ u16be a ++ 0 :: 0 :: p := by
  simp [emitResponse, ProtocolHandler.create_read_response, ResponseHeader.to_bytes,
    Nat.mod_eq_of_lt hc, CMD_RESP]

theorem emit_write_eq (c d a : Nat) (hc : c < 256) :
    emitResponse (ProtocolHandler.create_write_response c d a)
      = CMD_RESP :: u32be 13 ++ c :: u32be d ++ u16be a ++ [0, 0] := by
  simp [emitResponse, ProtocolHandler.create_write_response, ResponseHeader.to_bytes,
    Nat.mod_eq_of_lt hc, CMD_RESP]

theorem emit_read_length (c d a : Nat) (p : List Nat) :
    (emitResponse (ProtocolHandler.create_read_response c d a p)).length = 14 + p.length := by
  simp [emitResponse, ProtocolHandler.create_read_response, ResponseHeader.to_bytes, u32be, u16be]
  omega

/-! ### The claims -/

/-- Claim C1: the simple connection handler of `src/src/main.rs` is not
fragmentation invariant.  Delivering the valid 12-byte Read command of
Scenario A as a 1-byte read followed by an 11-byte read makes it propagate
the parse error of the 1-byte prefix and terminate the connection with no
response, while the same bytes delivered at once produce the Read response;
the draining handler of `src/src/examples/debug.rs` gives identical runs on
both splits, as the spec demands of the Connection Handler. -/
theorem claim_C1_main_not_fragmentation_invariant :
    runMain DebugBackend
        [[0x0a], [0x00, 0x00, 0x00, 0x0e, 0x01, 0x00, 0x00, 0x00, 0x02, 0xf6, 0xfb]] []
      = some (.error "Failed to parse command: Buffer too short for read command")
    ∧ runMain DebugBackend [scenarioA] []
      = some (.ok [0x0b, 0x00, 0x00, 0x00, 0x0f, 0x01, 0x00, 0x00, 0x00, 0x02,
                   0xf6, 0xfb, 0x00, 0x00, 12, 12])
    ∧ runDbg DebugBackend
        [[0x0a], [0x00, 0x00, 0x00, 0x0e, 0x01, 0x00, 0x00, 0x00, 0x02, 0xf6, 0xfb]] []
      = runDbg DebugBackend [scenarioA] [] := by
  decide

/-- Claim C2: the simple connection handler of `src/src/main.rs` discards
received-but-unconsumed bytes.  When one read event delivers the 12-byte
Read command of Scenario A followed by the first two bytes of the next
command, the codec consumes only 12 bytes, yet the handler resets its
buffer to empty after responding, dropping the two trailing bytes; the
draining handler of `src/src/examples/debug.rs` keeps exactly those two
bytes, as the claim demands. -/
theorem claim_C2_main_discards_unconsumed :
    mainStep DebugBackend [] (scenarioA ++ [0x0a, 0x00])
      = some (.ok ([0x0b, 0, 0, 0, 0x0f, 1, 0, 0, 0, 2, 0xf6, 0xfb, 0, 0, 12, 12], []))
    ∧ codecParse (scenarioA ++ [0x0a, 0x00]) = .complete (.read ⟨0x0a, 0x0e, 1, 2, 0xf6fb⟩) 12
    ∧ drainDbg DebugBackend (scenarioA ++ [0x0a, 0x00])
      = .ok ([ProtocolResponse.read ⟨0x0b, 15, 1, 2, 0xf6fb, 0, 0⟩ [12, 12]], [0x0a, 0x00]) := by
  decide

/-- Claim C3: a backend error terminates the connection in `src/src/main.rs`.
With a backend whose read faults, the valid Read command of Scenario A makes
`process_command` propagate the error, so the handler returns `Err` and the
connection ends with no response; the device-side `process_command` of
`src/sigmadsp_esp32/src/main.rs` instead converts the same fault into an
error response and still reports the command's 12 bytes as consumed, as the
claim demands. -/
theorem claim_C3_main_backend_error_terminates :
    runMain FailingBackend [scenarioA] [] = some (.error "bus fault")
    ∧ processCommandEsp FailingBackend scenarioA
      = .ok (.error "I2C read error: bus fault", 12) := by
  decide

/-- Claim C4: Scenario A decodes to `Complete(Read)` with chip address 0x01,
data length 2 and parameter address 0xF6FB, consuming 12 bytes; Scenario B
decodes to `Complete(Write)` with chip address 0x01, data length 2,
parameter address 0xF020 and payload `[0x00, 0x08]`, consuming 16 bytes.
The in-tree `ProtocolHandler::parse_command` decodes the same commands. -/
theorem claim_C4_scenario_decoding :
    codecParse scenarioA = .complete (.read ⟨0x0a, 0x0e, 0x01, 2, 0xf6fb⟩) 12
    ∧ ProtocolHandler.parse_command scenarioA = some (.ok (.read ⟨0x0a, 0x0e, 0x01, 2, 0xf6fb⟩))
    ∧ codecParse scenarioB = .complete (.write ⟨0x09, 0, 0, 0x10, 0x01, 2, 0xf020⟩ [0x00, 0x08]) 16
    ∧ ProtocolHandler.parse_command scenarioB
        = some (.ok (.write ⟨0x09, 0, 0, 0x10, 0x01, 2, 0xf020⟩ [0x00, 0x08])) := by
  decide

/-- Claim C5: an empty buffer, a Read with only 11 of its 12 header bytes, a
Write with only 13 of its 14 header bytes, and a full Write header whose
declared `data_len` exceeds the available payload all yield `Incomplete` —
never `Invalid` — with nothing consumed: the codec reports it as
`Incomplete`, the in-tree parser returns `Err` (not `Unknown`), and the
draining handler keeps the whole buffer untouched. -/
theorem claim_C5_incomplete_inputs (buf : List Nat) (bk : BackendM)
    (h : incompleteInput buf) :
    codecParse buf = .incomplete
    ∧ isErrResult (ProtocolHandler.parse_command buf) = true
    ∧ drainDbg bk buf = .ok ([], buf) := by
  obtain ⟨e, hlib, hsrc⟩ := incomplete_parse_err buf h
  refine ⟨?_, ?_, ?_⟩
  · rw [codecParse, hlib]
  · rw [hsrc]
    rfl
  · rw [drainDbg]
    exact drainFuel_keep bk _ buf e hlib

theorem claim_C5_witness :
    incompleteInput [0x0a, 0x00, 0x00, 0x00, 0x0e, 0x01, 0x00, 0x00, 0x00, 0x02, 0xf6]
    ∧ (codecParse [0x0a, 0x00, 0x00, 0x00, 0x0e, 0x01, 0x00, 0x00, 0x00, 0x02, 0xf6]
        = .incomplete
      ∧ isErrResult (ProtocolHandler.parse_command
          [0x0a, 0x00, 0x00, 0x00, 0x0e, 0x01, 0x00, 0x00, 0x00, 0x02, 0xf6]) = true
      ∧ drainDbg DebugBackend [0x0a, 0x00, 0x00, 0x00, 0x0e, 0x01, 0x00, 0x00, 0x00, 0x02, 0xf6]
        = .ok ([], [0x0a, 0x00, 0x00, 0x00, 0x0e, 0x01, 0x00, 0x00, 0x00, 0x02, 0xf6])) :=
  ⟨by decide,
   claim_C5_incomplete_inputs
     [0x0a, 0x00, 0x00, 0x00, 0x0e, 0x01, 0x00, 0x00, 0x00, 0x02, 0xf6] DebugBackend
     (by decide)⟩

/-- Claim C6: any non-empty buffer whose first byte is neither the Read
opcode 0x0A nor the Write opcode 0x09 decodes to the `Unknown`/`Invalid`
outcome carrying exactly that opcode byte, in the in-tree parser and in the
codec taxonomy alike. -/
theorem claim_C6_unknown_opcode (b : Nat) (rest : List Nat)
    (h1 : b ≠ CMD_READ) (h2 : b ≠ CMD_WRITE) :
    ProtocolHandler.parse_command (b :: rest) = some (.ok (.unknown b))
    ∧ codecParse (b :: rest) = .invalid b := by
  have hp : parse_command_lib (b :: rest) = .ok (.unknown b, 1) := by
    simp only [parse_command_lib]
    rw [if_neg h1, if_neg h2]
  constructor
  · simp only [ProtocolHandler.parse_command, List.isEmpty_cons, Bool.false_eq_true, if_false,
      List.getElem?_cons_zero]
    rw [if_neg h1, if_neg h2]
  · rw [codecParse, hp]

theorem claim_C6_witness :
    (0x0b : Nat) ≠ CMD_READ ∧ (0x0b : Nat) ≠ CMD_WRITE
    ∧ (ProtocolHandler.parse_command (0x0b :: [1, 2, 3]) = some (.ok (.unknown 0x0b))
       ∧ codecParse (0x0b :: [1, 2, 3]) = .invalid 0x0b) :=
  ⟨by decide, by decide, claim_C6_unknown_opcode 0x0b [1, 2, 3] (by decide) (by decide)⟩

/-- Claim C7 (counterexample): the serialized response header is 14 bytes
(control, 4-byte total length, chip address, 4-byte data length, 2-byte
parameter address, success, reserved), not 13: dropping 13 bytes from an
encoded read response does not reach the payload, and an encoded write
response is 14 bytes long. -/
theorem claim_C7_counterexample :
    (emitResponse (ProtocolHandler.create_read_response 1 1 0 [170])).drop 13 ≠ [170]
    ∧ (emitResponse (ProtocolHandler.create_write_response 1 2 3)).length ≠ 13 := by
  decide

/-- Claim C7 (amended): for every chip address, data length, parameter
address and payload, the encoded read response has control byte equal to the
response opcode 0x0B, total-length field `13 + payload length`, and the
payload appended verbatim after the 14-byte big-endian header; the encoded
write response is the bare 14-byte header with total-length field 13 and no
payload. -/
theorem claim_C7_response_encoding (c d a : Nat) (p : List Nat)
    (hc : c < 256) (hp : 13 + p.length < 2 ^ 32) :
    emitResponse (ProtocolHandler.create_read_response c d a p)
      = CMD_RESP :: u32be (13 + p.length) ++ c :: u32be d ++ u16be a ++ 0 :: 0 :: p
    ∧ (emitResponse (ProtocolHandler.create_read_response c d a p)).drop 14 = p
    ∧ (emitResponse (ProtocolHandler.create_read_response c d a p)).length = 14 + p.length
    ∧ beNat (((emitResponse (ProtocolHandler.create_read_response c d a p)).drop 1).take 4)
        = 13 + p.length
    ∧ emitResponse (ProtocolHandler.create_write_response c d a)
      = CMD_RESP :: u32be 13 ++ c :: u32be d ++ u16be a ++ [0, 0]
    ∧ (emitResponse (ProtocolHandler.create_write_response c d a)).length = 14
    ∧ beNat (((emitResponse (ProtocolHandler.create_write_response c d a)).drop 1).take 4)
        = 13 := by
  refine ⟨emit_read_eq c d a p hc, ?_, emit_read_length c d a p, ?_,
    emit_write_eq c d a hc, ?_, ?_⟩
  · rw [emit_read_eq c d a p hc]
    rfl
  · rw [emit_read_eq c d a p hc]
    exact beNat_u32be _ hp
  · rw [emit_write_eq c d a hc]
    rfl
  · rw [emit_write_eq c d a hc]
    exact beNat_u32be 13 (by norm_num)

theorem claim_C7_witness :
    (1 : Nat) < 256 ∧ 13 + [170, 9].length < 2 ^ 32
    ∧ (emitResponse (ProtocolHandler.create_read_response 1 2 0xf6fb [170, 9])
        = CMD_RESP :: u32be (13 + [170, 9].length) ++ 1 :: u32be 2 ++ u16be 0xf6fb
            ++ 0 :: 0 :: [170, 9]
      ∧ (emitResponse (ProtocolHandler.create_read_response 1 2 0xf6fb [170, 9])).drop 14
          = [170, 9]
      ∧ (emitResponse (ProtocolHandler.create_read_response 1 2 0xf6fb [170, 9])).length
          = 14 + [170, 9].length
      ∧ beNat (((emitResponse
            (ProtocolHandler.create_read_response 1 2 0xf6fb [170, 9])).drop 1).take 4)
          = 13 + [170, 9].length
      ∧ emitResponse (ProtocolHandler.create_write_response 1 2 0xf6fb)
          = CMD_RESP :: u32be 13 ++ 1 :: u32be 2 ++ u16be 0xf6fb ++ [0, 0]
      ∧ (emitResponse (ProtocolHandler.create_write_response 1 2 0xf6fb)).length = 14
      ∧ beNat (((emitResponse
            (ProtocolHandler.create_write_response 1 2 0xf6fb)).drop 1).take 4) = 13) :=
  ⟨by decide, by decide,
   claim_C7_response_encoding 1 2 0xf6fb [170, 9] (by decide) (by decide)⟩

/-- Claim C8: encoding a read response and re-parsing the bytes as a generic
response frame recovers the chip address, the data length, the parameter
address and a byte-identical payload; decoding the same bytes with the
in-tree `RequestHeader::from_bytes` (whose first 12 bytes share the
response-frame layout) recovers the same three fields. -/
theorem claim_C8_roundtrip (c d a : Nat) (p : List Nat)
    (hc : c < 256) (hd : d < 2 ^ 32) (ha : a < 2 ^ 16) (hp : 13 + p.length < 2 ^ 32) :
    parseResponseFrame (emitResponse (ProtocolHandler.create_read_response c d a p))
      = some { control_bit := CMD_RESP, total_len := 13 + p.length, chip_addr := c,
               data_len := d, param_addr := a, success := 0, reserved := 0, payload := p }
    ∧ RequestHeader.from_bytes (emitResponse (ProtocolHandler.create_read_response c d a p))
      = some { control_bit := CMD_RESP, total_len := 13 + p.length, chip_addr := c,
               data_len := d, param_addr := a } := by
  have hlen := emit_read_length c d a p
  constructor
  · rw [emit_read_eq c d a p hc] at hlen ⊢
    rw [parseResponseFrame, if_pos (by omega)]
    simp only [Option.some.injEq, ResponseFrame.mk.injEq]
    refine ⟨rfl, ?_, rfl, ?_, ?_, rfl, rfl, rfl⟩
    · exact beNat_u32be _ hp
    · exact beNat_u32be d hd
    · exact beNat_u16be a ha
  · rw [emit_read_eq c d a p hc] at hlen ⊢
    rw [requestHeader_from_bytes_eq _ (by omega)]
    simp only [Option.some.injEq, readHeaderAt, RequestHeader.mk.injEq]
    refine ⟨rfl, ?_, rfl, ?_, ?_⟩
    · exact beNat_u32be _ hp
    · exact beNat_u32be d hd
    · exact beNat_u16be a ha

theorem claim_C8_witness :
    (1 : Nat) < 256 ∧ (2 : Nat) < 2 ^ 32 ∧ (0xf020 : Nat) < 2 ^ 16
    ∧ 13 + [0, 8].length < 2 ^ 32
    ∧ (parseResponseFrame (emitResponse (ProtocolHandler.create_read_response 1 2 0xf020 [0, 8]))
        = some { control_bit := CMD_RESP, total_len := 13 + [0, 8].length, chip_addr := 1,
                 data_len := 2, param_addr := 0xf020, success := 0, reserved := 0,
                 payload := [0, 8] }
      ∧ RequestHeader.from_bytes
          (emitResponse (ProtocolHandler.create_read_response 1 2 0xf020 [0, 8]))
        = some { control_bit := CMD_RESP, total_len := 13 + [0, 8].length, chip_addr := 1,
                 data_len := 2, param_addr := 0xf020 }) :=
  ⟨by decide, by decide, by decide, by decide,
   claim_C8_roundtrip 1 2 0xf020 [0, 8] (by decide) (by decide) (by decide) (by decide)⟩

/-- Claim C9: `ProtocolHandler::parse_command` is total: on every input it
returns a value (a command or an error) and never panics — in the model,
the panic-tracking `Option` is always `some`, because every index and
subslice it takes sits under a sufficient length check. -/
theorem claim_C9_parse_total (buf : List Nat) :
    (ProtocolHandler.parse_command buf).isSome = true := by
  cases buf with
  | nil => rfl
  | cons b rest =>
    simp only [ProtocolHandler.parse_command, List.isEmpty_cons, Bool.false_eq_true, if_false,
      List.getElem?_cons_zero]
    by_cases hb : b = CMD_READ
    · rw [if_pos hb]
      by_cases h12 : 12 ≤ (b :: rest).length
      · rw [if_pos h12, requestHeader_from_bytes_eq _ h12]
        rfl
      · rw [if_neg h12]
        rfl
    · rw [if_neg hb]
      by_cases hw : b = CMD_WRITE
      · rw [if_pos hw]
        by_cases h14 : 14 ≤ (b :: rest).length
        · rw [if_pos h14, writeHeader_from_bytes_eq _ h14]
          dsimp only
          by_cases hdl : 14 + (writeHeaderAt (b :: rest)).data_len ≤ (b :: rest).length
          · rw [if_pos hdl, slice?_pos _ _ _ (by omega) hdl]
            rfl
          · rw [if_neg hdl]
            rfl
        · rw [if_neg h14]
          rfl
      · rw [if_neg hw]
        rfl

/-- Claim C10: every response header built by `create_read_response` or
`create_write_response` has its success field equal to 0 and its reserved
byte equal to 0, for all arguments; on the wire these are bytes 12 and 13
of the encoded response, both always 0. -/
theorem claim_C10_success_reserved_constant (c d a : Nat) (p : List Nat) :
    ProtocolHandler.create_read_response c d a p
      = .read { control_bit := CMD_RESP, total_len := 13 + p.length, chip_addr := c,
                data_len := d, param_addr := a, success := 0, reserved := 0 } p
    ∧ ProtocolHandler.create_write_response c d a
      = .write { control_bit := CMD_RESP, total_len := 13, chip_addr := c,
                 data_len := d, param_addr := a, success := 0, reserved := 0 }
    ∧ byteAt (emitResponse (ProtocolHandler.create_read_response c d a p)) 12 = 0
    ∧ byteAt (emitResponse (ProtocolHandler.create_read_response c d a p)) 13 = 0
    ∧ byteAt (emitResponse (ProtocolHandler.create_write_response c d a)) 12 = 0
    ∧ byteAt (emitResponse (ProtocolHandler.create_write_response c d a)) 13 = 0 :=
  ⟨rfl, rfl, rfl, rfl, rfl, rfl⟩
